import Mathlib

/-!
Verification of the msdk-py project-lifecycle CLI against its
natural-language specification.  The definitions below are a shallow
embedding of the Python sources under src/msdk_py: pure string and list
computations are translated to Lean functions, and the stateful
generation pipeline (commands/init/generate.py) is translated to explicit
state passing over a record of the filesystem entries the code touches.
-/

/-- Error classes raised by the code (common/error.py), plus two extra
constructors used by the embedding: osError stands for an OSError raised
by the OS layer inside generation (wrapped into MsdkError by gen_proj),
and commandFailed carries the exit code reported by run_trusted_cmd
inside its CannotProceedError message. -/
inductive Err where
  | validation
  | cannotProceed
  | missingTool
  | osError
  | msdkError
  | commandFailed (code : Int)
deriving DecidableEq

/-! ## Quiet-mode flag (common/display.py) -/

/-- Module-level initial value of the` _QUIET_MODE` global: False. -/
def initialQuietMode : Bool := false

/-- Translation of set_quiet_mode.  The body executes the assignment
_QUIET_MODE = enabled with no global declaration in scope, so Python
binds a function-local name and the module-level global (modelled as the
explicit state g) is left unchanged. -/
def set_quiet_mode (enabled : Bool) (g : Bool) : Bool :=
  let _QUIET_MODE : Bool := enabled
  g

/-- Translation of is_quiet_mode: reads the module-level global. -/
def is_quiet_mode (g : Bool) : Bool := g

/-- Translation of the quiet-flag handling in main (`__main__.py`): when
the quiet flag (-q) is set, main calls set_quiet_mode True once at
startup; the resulting module state is returned. -/
def mainQuietState (quietFlag : Bool) : Bool :=
  if quietFlag then set_quiet_mode true initialQuietMode else initialQuietMode

/-! ## dir_is_empty (common/utils.py) -/

/-- Translation of dir_is_empty: the body is any(path.iterdir()), which
is True exactly when the directory has at least one entry (Path objects
are always truthy).  The docstring of the Python function promises the
opposite (True if the directory is empty). -/
def dir_is_empty (entries : List String) : Bool :=
  !entries.isEmpty

/-! ## Toolchain discovery (common/utils.py, find_maxim_toolchain) -/

/-- One directory entry of Tools/GNUTools. -/
structure TEntry where
  name : String
  isDir : Bool
deriving DecidableEq

/-- State of the Tools/GNUTools directory: whether it exists, its
entries, and the set of version names whose bin subdirectory exists as a
directory. -/
structure GnuTools where
  present : Bool
  entries : List TEntry
  binDirs : List String
deriving DecidableEq

/-- Translation of d.name[0].isdigit() (name nonempty for real directory
entries; the empty name is mapped to false). -/
def strFirstIsDigit (s : String) : Bool :=
  match s.data with
  | [] => false
  | c :: _ => c.isDigit

/-- The filter applied to GNUTools entries: directories whose name
starts with a digit. -/
def versionFilter (d : TEntry) : Bool :=
  d.isDir && strFirstIsDigit d.name

/-- Translation of str.split for the single-character separator dot:
splitDotChars (toList s) is the list of dot-separated components. -/
def splitDotChars : List Char → List (List Char)
  | [] => [[]]
  | c :: rest =>
    let r := splitDotChars rest
    if c = '.' then [] :: r
    else
      match r with
      | h :: t => (c :: h) :: t
      | [] => [[c]]

/-- Translation of int(x) for the digit strings appearing as version
components: defined on every all-digit nonempty string, none otherwise
(in Python a malformed component raises ValueError). -/
def pyIntOfDigits? (cs : List Char) : Option Nat :=
  match cs with
  | [] => none
  | _ =>
    cs.foldl
      (fun acc c =>
        match acc with
        | none => none
        | some n => if c.isDigit then some (n * 10 + (c.toNat - '0'.toNat)) else none)
      (some 0)

/-- Option-valued map over a list, used to model the sort key
[int(x) for x in p.name.split "."] which raises when any component is
malformed. -/
def optMapList (f : α → Option β) : List α → Option (List β)
  | [] => some []
  | x :: xs =>
    match f x with
    | none => none
    | some y =>
      match optMapList f xs with
      | none => none
      | some ys => some (y :: ys)

/-- The numeric sort key of a version directory name. -/
def verKey? (s : String) : Option (List Nat) :=
  optMapList pyIntOfDigits? (splitDotChars s.data)

/-- Python comparison of two lists of ints: strict lexicographic order,
a proper prefix being smaller. -/
def keyLt : List Nat → List Nat → Bool
  | [], [] => false
  | [], _ :: _ => true
  | _ :: _, [] => false
  | a :: as, b :: bs => a < b || (a == b && keyLt as bs)

/-- Non-strict version of keyLt, the order used by the ascending sort. -/
def keyLe (a b : List Nat) : Bool :=
  !keyLt b a

/-- The sort relation on keyed entries (sort key, directory name). -/
def keyedLe (x y : List Nat × String) : Prop :=
  keyLe x.1 y.1 = true

instance : DecidableRel keyedLe := fun x y =>
  inferInstanceAs (Decidable (keyLe x.1 y.1 = true))

/-- Translation of find_maxim_toolchain: checks the GNUTools directory,
filters entries to version directories, fails with MissingToolError when
none remain, sorts ascending by the numeric key, picks the last (the
maximum) and returns its bin subdirectory after validating it.  A
version name whose components do not all parse makes int() raise an
uncaught ValueError, modelled here as an osError result. -/
def find_maxim_toolchain (g : GnuTools) : Except Err String :=
  if !g.present then .error .validation
  else
    let versions := g.entries.filter versionFilter
    if versions.isEmpty then .error .missingTool
    else
      match optMapList (fun d => (verKey? d.name).map (fun k => (k, d.name))) versions with
      | none => .error .osError
      | some keyed =>
        match (List.insertionSort keyedLe keyed).getLast? with
        | none => .error .missingTool
        | some best =>
          if g.binDirs.contains best.2 then .ok (best.2 ++ "/bin")
          else .error .validation

/-! ## Flash-field derivation (common/toml_config.py) -/

/-- The literal placeholder token referring to the project name. -/
def tokProjectName : String := "$\x7bconfig:project_name\x7d"

/-- The literal placeholder token referring to the program file. -/
def tokProgramFile : String := "$\x7bconfig:program_file\x7d"

/-- Translation of str.replace on character lists: scan left to right,
replacing non-overlapping occurrences of the (nonempty) pattern.  The
fuel argument is the length of the scanned list, which bounds the
number of steps. -/
def pyReplaceAux (pat rep : List Char) : Nat → List Char → List Char
  | 0, s => s
  | _ + 1, [] => []
  | fuel + 1, c :: rest =>
    if !pat.isEmpty && pat.isPrefixOf (c :: rest) then
      rep ++ pyReplaceAux pat rep fuel ((c :: rest).drop pat.length)
    else
      c :: pyReplaceAux pat rep fuel rest

/-- Translation of str.replace (all tokens substituted in the code are
nonempty, so the Python empty-pattern corner case never arises). -/
def pyReplace (s pat rep : String) : String :=
  (pyReplaceAux pat.data rep.data s.data.length s.data).asString

/-- The subset of the VSCode settings.json document read by the code
(absent keys are none; settings.get falls back to its default). -/
structure VsSettings where
  program_file : Option String
  symbol_file : Option String
  target : Option String
  board : Option String
  interface_file : Option String
  target_file : Option String
deriving DecidableEq

/-- A VsSettings value with every key absent. -/
def VsSettings.emptyDoc : VsSettings :=
  { program_file := none, symbol_file := none, target := none,
    board := none, interface_file := none, target_file := none }

/-- The flash-related values extracted from a settings document. -/
structure FlashFields where
  target : String
  board : String
  program_file : String
  symbol_file : String
  interface_file : String
  target_file : String
deriving DecidableEq

/-- Translation of extract_flash_config_from_vscode: the project-name
token inside program_file is resolved first, and both the resolved
program-file token and the project-name token are then substituted into
symbol_file by literal replacement. -/
def extract_flash_config_from_vscode (settings : VsSettings) (project_name : String) :
    FlashFields :=
  let program_file := settings.program_file.getD (project_name ++ ".elf")
  let program_file := pyReplace program_file tokProjectName project_name
  let symbol_file := settings.symbol_file.getD program_file
  let symbol_file := pyReplace symbol_file tokProgramFile program_file
  let symbol_file := pyReplace symbol_file tokProjectName project_name
  { target := settings.target.getD ""
    board := settings.board.getD ""
    program_file := program_file
    symbol_file := symbol_file
    interface_file := settings.interface_file.getD "cmsis-dap.cfg"
    target_file := settings.target_file.getD "" }

/-! ## Command runner (common/utils.py, run_trusted_cmd) -/

/-- Observable behaviour of the child process: the raw lines each stream
produces (in order, trailing newline included) and the exit code. -/
structure CmdSpec where
  outLines : List String
  errLines : List String
  exitCode : Int
deriving DecidableEq

/-- Translation of line.rstrip(): drop trailing whitespace. -/
def pyRstrip (s : String) : String :=
  ((s.data.reverse.dropWhile Char.isWhitespace).reverse).asString

/-- Translation of the per-line formatting done by _out_stream. -/
def fmtStreamLine (l : String) : String :=
  "  |  " ++ pyRstrip l

/-- An interleaving of two lists directed by a boolean schedule; when
the schedule picks an exhausted stream, or runs out, the remaining lines
are appended.  This models the unspecified relative order of the two
reader threads while keeping the per-stream order. -/
def interleave : List Bool → List α → List α → List α
  | [], xs, ys => xs ++ ys
  | true :: s, x :: xs, ys => x :: interleave s xs ys
  | true :: _, [], ys => ys
  | false :: s, xs, y :: ys => y :: interleave s xs ys
  | false :: _, xs, [] => xs

/-- Translation of run_trusted_cmd: both reader threads are drained
fully (every line of both streams is formatted and reaches the console,
in some interleaving) before the process exit code is checked; a
non-zero exit code raises CannotProceedError carrying the code. -/
def run_trusted_cmd (c : CmdSpec) (sched : List Bool) :
    List String × Except Err Unit :=
  let transcript :=
    interleave sched (c.outLines.map fmtStreamLine) (c.errLines.map fmtStreamLine)
  (transcript, if c.exitCode = 0 then .ok () else .error (.commandFailed c.exitCode))

/-! ## Run command (commands/run/`__init__.py`) and build modification
check (common/build.py) -/

/-- Translation of the check_modified branch of build_project: the mtime
of the elf before the build is its stat mtime when it exists, else 0.0;
afterwards the build is reported as modifying the file iff the file
exists and its mtime strictly increased. -/
def buildCheckModified (existsBefore : Bool) (mtimeBefore : Nat)
    (existsAfter : Bool) (mtimeAfter : Nat) : Bool :=
  let before := if existsBefore then mtimeBefore else 0
  if existsAfter then decide (mtimeAfter > before) else false

/-- The externally visible steps of RunCommand.execute. -/
inductive RStep where
  | build
  | flashHalt
  | runResume
deriving DecidableEq

/-- Translation of RunCommand.execute: need_flash starts as the negation
of --skip-flash; when the build step runs and reports the elf as
modified, need_flash is forced to True; the halt-mode flash runs iff
need_flash, and the resume-mode run step always runs last. -/
def runCommandSteps (skipBuild skipFlash : Bool) (existsBefore : Bool)
    (mtimeBefore : Nat) (existsAfter : Bool) (mtimeAfter : Nat) : List RStep :=
  let needFlash := !skipFlash
  let elfModified :=
    !skipBuild && buildCheckModified existsBefore mtimeBefore existsAfter mtimeAfter
  let needFlash := if elfModified then true else needFlash
  (if !skipBuild then [RStep.build] else [])
    ++ (if needFlash then [RStep.flashHalt] else [])
    ++ [RStep.runResume]

/-! ## Project generation (commands/init/generate.py) -/

/-- Kind of the .git entry of the output directory, as distinguished by
Path.exists, Path.is_file and Path.is_dir. -/
inductive GEnt where
  | gnone
  | gfile
  | gdir
deriving DecidableEq

/-- Kind and content of the .gitignore entry of the output directory. -/
inductive IgnEnt where
  | absent
  | file (content : String)
  | dir
deriving DecidableEq

/-- State of the template (example) directory read by generation:
presence of the directory and of the three required files, their
contents (project.mk as its splitlines decomposition), and the .vscode
subdirectory with its optional settings.json document. -/
structure TemplateDir where
  present : Bool
  hasMakefile : Bool
  hasMainC : Bool
  hasProjectMk : Bool
  makefileContent : String
  mainCContent : String
  projectMkLines : List String
  hasVscodeDir : Bool
  settingsJson : Option VsSettings
deriving DecidableEq

/-- The three template files all exist (checked by
_ensure_template_files_exist before any copy). -/
def templateOk (t : TemplateDir) : Bool :=
  t.present && t.hasMakefile && t.hasMainC && t.hasProjectMk

/-- State of the output directory: every filesystem entry that
generation reads or writes.  File contents are Option values (none =
absent); project.mk is kept as its splitlines decomposition.  The three
Old fields stand for the Makefile.old, src/main.c.old and project.mk.old
backup names; no statement of generate.py ever writes them.  The marker
field is the presence of the .msdk-py-proj sentinel file checked by
ensure_proj_dir (common/validation.py); no statement of gen_proj or its
helpers writes that path either. -/
structure OutDir where
  present : Bool
  marker : Bool
  makefile : Option String
  makefileOld : Option String
  srcMain : Option String
  srcMainOld : Option String
  projectMk : Option (List String)
  projectMkOld : Option String
  srcDir : Bool
  includeDir : Bool
  includeEntries : List String
  git : GEnt
  vscodePresent : Bool
  vscodeSettings : Option VsSettings
  readme : Option String
  msdkToml : Bool
  ignore : IgnEnt
deriving DecidableEq

/-- A non-existent (or just removed) output directory. -/
def OutDir.emptyAbsent : OutDir :=
  { present := false, marker := false, makefile := none, makefileOld := none,
    srcMain := none, srcMainOld := none, projectMk := none, projectMkOld := none,
    srcDir := false, includeDir := false, includeEntries := [], git := .gnone,
    vscodePresent := false, vscodeSettings := none, readme := none,
    msdkToml := false, ignore := .absent }

/-- A freshly created, empty output directory (result of mkdir). -/
def OutDir.emptyPresent : OutDir :=
  { OutDir.emptyAbsent with present := true }

/-- Arguments and environment of one gen_proj invocation.  projName is
output_dir.resolve().name; is_cwd is the comparison of output_dir with
the current working directory computed at the top of gen_proj; the three
fault flags inject an OSError into the corresponding shutil.copy2 call;
gitAvailable models shutil.which("git") and gitInitFails a non-zero exit
of the spawned git init. -/
structure GenArgs where
  projName : String
  target : String
  bsp : String
  is_cwd : Bool
  include_vscode : Bool
  include_readme : Bool
  init_git : Bool
  gitAvailable : Bool
  gitInitFails : Bool
  fault0 : Bool
  fault1 : Bool
  fault2 : Bool
deriving DecidableEq

/-- Result of a generation step: the updated state on success, or the
raised error together with the state at the moment it was raised. -/
abbrev GRes := Except (Err × OutDir) OutDir

/-- Sequencing of generation steps; an error short-circuits. -/
def stepBind (x : GRes) (f : OutDir → GRes) : GRes :=
  match x with
  | .error e => .error e
  | .ok d => f d

/-- Translation of _ensure_template_files_exist: the template directory
and its Makefile, main.c and project.mk must all exist, else
ValidationError; the output directory is untouched. -/
def stepEnsureTemplate (t : TemplateDir) (d : OutDir) : GRes :=
  if templateOk t then .ok d else .error (.validation, d)

/-- Translation of the output_dir.mkdir(parents=True) call in
_copy_template_files: skipped when adopting the current working
directory; in fresh mode an already existing directory makes mkdir raise
FileExistsError (an OSError), otherwise a fresh empty directory is
created. -/
def stepMkdir (a : GenArgs) (d : OutDir) : GRes :=
  if a.is_cwd then .ok d
  else if d.present then .error (.osError, d)
  else .ok OutDir.emptyPresent

/-- Translation of the include/ and src/ mkdir(exist_ok=True) calls. -/
def stepSubdirs (d : OutDir) : GRes :=
  .ok { d with srcDir := true, includeDir := true }

/-- Translation of the first iteration of the copy loop (Makefile): the
copy runs only when the destination does not already exist; there is no
rename of an existing destination to a .old name. -/
def stepCopyMakefile (t : TemplateDir) (a : GenArgs) (d : OutDir) : GRes :=
  match d.makefile with
  | some _ => .ok d
  | none =>
    if a.fault0 then .error (.osError, d)
    else .ok { d with makefile := some t.makefileContent }

/-- Translation of the second iteration of the copy loop (main.c into
src/main.c), same skip-if-exists policy. -/
def stepCopyMainC (t : TemplateDir) (a : GenArgs) (d : OutDir) : GRes :=
  match d.srcMain with
  | some _ => .ok d
  | none =>
    if a.fault1 then .error (.osError, d)
    else .ok { d with srcMain := some t.mainCContent }

/-- The identity block appended to a freshly copied project.mk: the last
template line (the placeholder comment) is dropped and four lines are
appended. -/
def rewriteProjectMk (lines : List String) (a : GenArgs) : List String :=
  lines.dropLast ++
    ["PROJECT=" ++ a.projName,
     "BOARD=" ++ a.bsp,
     "TARGET=" ++ a.target ++ "\n",
     "# Add any additional configs here!\n"]

/-- Translation of the third iteration of the copy loop (project.mk)
merged with the project_mk_copied rewrite that generate.py performs a
few lines later: the rewrite runs exactly when the copy ran, and no step
in between touches project.mk, so the merged step produces the same
final state. -/
def stepCopyProjectMk (t : TemplateDir) (a : GenArgs) (d : OutDir) : GRes :=
  match d.projectMk with
  | some _ => .ok d
  | none =>
    if a.fault2 then .error (.osError, d)
    else .ok { d with projectMk := some (rewriteProjectMk t.projectMkLines a) }

/-- Translation of the .gitkeep placeholder: dropped when git support is
requested and dir_is_empty holds of include/ (which, as implemented,
means include/ is non-empty). -/
def stepGitKeep (a : GenArgs) (d : OutDir) : GRes :=
  if a.init_git && dir_is_empty d.includeEntries then
    .ok { d with includeEntries := d.includeEntries ++ [".gitkeep"] }
  else .ok d

/-- Translation of the .vscode handling: nothing when not requested or
when the destination already exists; otherwise copytree (which raises an
OSError when the template has no .vscode directory) followed by
_update_vscode_bsp, which requires settings.json to exist
(ValidationError otherwise) and rewrites its board field to the
requested BSP. -/
def stepVscode (t : TemplateDir) (a : GenArgs) (d : OutDir) : GRes :=
  if a.include_vscode then
    if d.vscodePresent then .ok d
    else if t.hasVscodeDir then
      let d2 := { d with vscodePresent := true, vscodeSettings := t.settingsJson }
      match t.settingsJson with
      | none => .error (.validation, d2)
      | some s => .ok { d2 with vscodeSettings := some { s with board := some a.bsp } }
    else .error (.osError, d)
  else .ok d

/-- Translation of the write_project_config call guarded by the
existence of the template settings.json: CannotProceedError when
msdk-proj.toml already exists, else the config document is written (its
field values are not needed by any claim and are not tracked). -/
def stepToml (t : TemplateDir) (d : OutDir) : GRes :=
  match t.settingsJson with
  | none => .ok d
  | some _ =>
    if d.msdkToml then .error (.cannotProceed, d)
    else .ok { d with msdkToml := true }

/-- Translation of the README.md block of gen_proj. -/
def stepReadme (a : GenArgs) (d : OutDir) : GRes :=
  if a.include_readme then
    match d.readme with
    | some _ => .ok d
    | none => .ok { d with readme := some ("# " ++ a.projName ++ "\n") }
  else .ok d

/-- Translation of _init_git on the .git entry alone: silently returns
when adopting the current working directory and any .git entry exists;
otherwise CannotProceedError on a .git file, CannotProceedError on a
.git directory, and for no entry: git init runs when the git binary is
found (CannotProceedError when it exits non-zero, the directory gaining
a .git directory on success) and MissingToolError when it is not. -/
def init_git_model (is_cwd gitAvailable gitInitFails : Bool) (g : GEnt) :
    Except Err GEnt :=
  if is_cwd && !(g == GEnt.gnone) then .ok g
  else
    match g with
    | .gfile => .error .cannotProceed
    | .gdir => .error .cannotProceed
    | .gnone =>
      if gitAvailable then
        if gitInitFails then .error .cannotProceed else .ok GEnt.gdir
      else .error .missingTool

/-- Translation of _write_git_ignore: a .gitignore directory is
tolerated and left alone; otherwise the fixed pattern block (with the
.vscode line exactly when VSCode config was requested) is appended to
the existing content, or to the empty string. -/
def write_git_ignore_model (vscode : Bool) (ig : IgnEnt) : IgnEnt :=
  let newCont :=
    "build/\ncompile_flags.txt\n*.log\n*.old\n" ++ (if vscode then ".vscode\n" else "")
  match ig with
  | .dir => .dir
  | .file c => .file (c ++ "\n" ++ newCont)
  | .absent => .file ("" ++ "\n" ++ newCont)

/-- Translation of the init_git block of gen_proj: _init_git followed,
on success, by _write_git_ignore. -/
def stepGit (a : GenArgs) (d : OutDir) : GRes :=
  if a.init_git then
    match init_git_model a.is_cwd a.gitAvailable a.gitInitFails d.git with
    | .error e => .error (e, d)
    | .ok g2 =>
      .ok { d with git := g2,
                   ignore := write_git_ignore_model a.include_vscode d.ignore }
  else .ok d

/-- The tail of the try block of gen_proj after the three copies: the
.gitkeep placeholder, .vscode copy, config document, README and git
setup, in the order generate.py performs them. -/
def genSuffix (t : TemplateDir) (a : GenArgs) (d6 : OutDir) : GRes :=
  stepBind (stepGitKeep a d6) (fun d7 =>
  stepBind (stepVscode t a d7) (fun d8 =>
  stepBind (stepToml t d8) (fun d9 =>
  stepBind (stepReadme a d9) (fun d10 =>
  stepGit a d10))))

/-- The body of the try block of gen_proj: validation, directory
creation, the three copies (with the project.mk rewrite), then the rest
of the pipeline, in the order generate.py performs them. -/
def genInner (t : TemplateDir) (a : GenArgs) (d0 : OutDir) : GRes :=
  stepBind (stepEnsureTemplate t d0) (fun d1 =>
  stepBind (stepMkdir a d1) (fun d2 =>
  stepBind (stepSubdirs d2) (fun d3 =>
  stepBind (stepCopyMakefile t a d3) (fun d4 =>
  stepBind (stepCopyMainC t a d4) (fun d5 =>
  stepBind (stepCopyProjectMk t a d5) (genSuffix t a))))))

/-- The error translation of the except clauses of gen_proj: an OSError
is wrapped into MsdkError, the three expected error classes are
re-raised unchanged. -/
def wrapGenErr : Err → Err
  | .osError => .msdkError
  | e => e

/-- Translation of gen_proj including its finally clause: on any caught
error, when the output directory exists and is not the adopted current
working directory, it is removed recursively (shutil.rmtree). -/
def gen_proj (t : TemplateDir) (a : GenArgs) (d0 : OutDir) : Option Err × OutDir :=
  match genInner t a d0 with
  | .ok d => (none, d)
  | .error (e, d) =>
    if d.present && !a.is_cwd then (some (wrapGenErr e), OutDir.emptyAbsent)
    else (some (wrapGenErr e), d)

/-- Translation of ensure_proj_dir (common/validation.py): the current
directory must contain the .msdk-py-proj sentinel marker file, else
ValidationError. -/
def ensure_proj_dir (d : OutDir) : Except Err Unit :=
  if d.marker then .ok () else .error .validation

/-! ## Helper lemmas: interleavings (command runner) -/

lemma interleave_length (s : List Bool) :
    ∀ (xs ys : List α), (interleave s xs ys).length = xs.length + ys.length := by
  induction s with
  | nil => intro xs ys; simp [interleave]
  | cons b s ih =>
    intro xs ys
    cases b <;> cases xs <;> cases ys <;> simp [interleave, ih] <;> omega

lemma sublist_interleave_left (s : List Bool) :
    ∀ (xs ys : List α), List.Sublist xs (interleave s xs ys) := by
  induction s with
  | nil => intro xs ys; exact List.sublist_append_left xs ys
  | cons b s ih =>
    intro xs ys
    cases b with
    | true =>
      cases xs with
      | nil => simp [interleave]
      | cons x xs => exact (ih xs ys).cons₂ x
    | false =>
      cases ys with
      | nil => simp [interleave]
      | cons y ys => exact (ih xs ys).cons y

lemma sublist_interleave_right (s : List Bool) :
    ∀ (xs ys : List α), List.Sublist ys (interleave s xs ys) := by
  induction s with
  | nil => intro xs ys; exact List.sublist_append_right xs ys
  | cons b s ih =>
    intro xs ys
    cases b with
    | true =>
      cases xs with
      | nil => simp [interleave]
      | cons x xs => exact (ih xs ys).cons x
    | false =>
      cases ys with
      | nil => simp [interleave]
      | cons y ys => exact (ih xs ys).cons₂ y

/-! ## Theorems for the quiet-mode flag, run command, flash fields,
command runner and git bootstrap -/

/-- C9: the claim says that after set_quiet_mode True the reader
is_quiet_mode returns True for the rest of the process.  In the code the
assignment in set_quiet_mode lacks a global declaration, so the module
flag never changes: after the startup call made by main for the quiet
CLI flag, is_quiet_mode still returns False. -/
theorem c9_quiet_flag_never_set :
    is_quiet_mode (set_quiet_mode true initialQuietMode) = false
    ∧ is_quiet_mode (mainQuietState true) = false := by
  exact ⟨rfl, rfl⟩

/-- C10: in the run command, the halt-mode flash step runs despite the
skip-flash flag whenever the build step runs and the program file exists
afterwards with a strictly larger modification time than the value used
before the build (its prior mtime, or 0 when it did not exist); and the
resume-mode run step executes for every combination of the two skip
flags. -/
theorem c10_run_skip_flash_not_guaranteed :
    (∀ (skipFlash existsBefore : Bool) (mtimeBefore : Nat) (mtimeAfter : Nat),
      (if existsBefore then mtimeBefore else 0) < mtimeAfter →
      RStep.flashHalt ∈
        runCommandSteps false skipFlash existsBefore mtimeBefore true mtimeAfter)
    ∧ (∀ (skipBuild skipFlash existsBefore : Bool) (mtimeBefore : Nat)
        (existsAfter : Bool) (mtimeAfter : Nat),
      RStep.runResume ∈
        runCommandSteps skipBuild skipFlash existsBefore mtimeBefore existsAfter mtimeAfter) := by
  constructor
  · intro skipFlash existsBefore mtimeBefore mtimeAfter h
    simp [runCommandSteps, buildCheckModified, h]
  · intro skipBuild skipFlash existsBefore mtimeBefore existsAfter mtimeAfter
    simp [runCommandSteps]

/-- Witness for c10_run_skip_flash_not_guaranteed at a concrete input:
skip-flash requested, build not skipped, mtime goes from 5 to 6. -/
theorem c10_witness :
    RStep.flashHalt ∈ runCommandSteps false true true 5 true 6
    ∧ RStep.runResume ∈ runCommandSteps true true true 5 true 6 := by
  exact ⟨c10_run_skip_flash_not_guaranteed.1 true true 5 6 (by decide),
         c10_run_skip_flash_not_guaranteed.2 true true true 5 true 6⟩

/-- The settings document of the C6 example: program_file references the
project name with an .elf suffix, symbol_file references program_file. -/
def sampleSettingsC6 : VsSettings :=
  { VsSettings.emptyDoc with
      program_file := some (tokProjectName ++ ".elf")
      symbol_file := some tokProgramFile }

/-- C6: flash-field derivation resolves the project-name token inside
program_file first and then substitutes the resolved program-file token
and the project-name token into symbol_file by literal replacement; on
the example document with project name demo, both resolved fields are
demo.elf. -/
theorem c6_flash_field_resolution :
    ((extract_flash_config_from_vscode sampleSettingsC6 "demo").program_file = "demo.elf"
      ∧ (extract_flash_config_from_vscode sampleSettingsC6 "demo").symbol_file = "demo.elf")
    ∧ (∀ (s : VsSettings) (pn : String),
        (extract_flash_config_from_vscode s pn).program_file
          = pyReplace (s.program_file.getD (pn ++ ".elf")) tokProjectName pn
        ∧ (extract_flash_config_from_vscode s pn).symbol_file
          = pyReplace
              (pyReplace
                (s.symbol_file.getD ((extract_flash_config_from_vscode s pn).program_file))
                tokProgramFile
                ((extract_flash_config_from_vscode s pn).program_file))
              tokProjectName pn) := by
  exact ⟨⟨by decide, by decide⟩, fun s pn => ⟨rfl, rfl⟩⟩

/-- C7: for every command behaviour and every thread interleaving, the
console transcript contains exactly N+M formatted lines, the stdout
lines appear in order (as a sublist) and so do the stderr lines; exit
code 0 yields no failure, and exit code 3 yields the failure carrying 3.
The transcript is produced before the exit-code check, modelling that
both readers are joined before the process result is inspected. -/
theorem c7_runner_drains_and_reports_exit :
    (∀ (c : CmdSpec) (sched : List Bool),
      ((run_trusted_cmd c sched).1).length = c.outLines.length + c.errLines.length
      ∧ List.Sublist (c.outLines.map fmtStreamLine) (run_trusted_cmd c sched).1
      ∧ List.Sublist (c.errLines.map fmtStreamLine) (run_trusted_cmd c sched).1)
    ∧ (∀ (c : CmdSpec) (sched : List Bool),
        c.exitCode = 0 → (run_trusted_cmd c sched).2 = .ok ())
    ∧ (∀ (c : CmdSpec) (sched : List Bool),
        c.exitCode = 3 → (run_trusted_cmd c sched).2 = .error (.commandFailed 3)) := by
  refine ⟨fun c sched => ⟨?_, ?_, ?_⟩, fun c sched h => ?_, fun c sched h => ?_⟩
  · simp [run_trusted_cmd, interleave_length]
  · exact sublist_interleave_left sched _ _
  · exact sublist_interleave_right sched _ _
  · simp [run_trusted_cmd, h]
  · simp [run_trusted_cmd, h]

/-- Witness for c7_runner_drains_and_reports_exit at a concrete command
writing two stdout lines and one stderr line. -/
theorem c7_witness :
    (run_trusted_cmd { outLines := ["a\n", "b\n"], errLines := ["e\n"], exitCode := 0 } []).2
        = .ok ()
    ∧ (run_trusted_cmd { outLines := [], errLines := [], exitCode := 3 } []).2
        = .error (.commandFailed 3) := by
  exact ⟨c7_runner_drains_and_reports_exit.2.1 _ [] rfl,
         c7_runner_drains_and_reports_exit.2.2 _ [] rfl⟩

/-- C8 counterexample: the claim requires a ConflictError whenever a
.git file exists, including when the target is the adopted current
working directory; but _init_git returns silently in that case (its
first statement), raising nothing. -/
theorem c8_counterexample :
    init_git_model true true false GEnt.gfile = .ok GEnt.gfile := by
  rfl

/-- C8 amended: outside the adopted current working directory, a .git
file or a .git directory makes git initialization fail with
CannotProceedError (reinitialization is never honoured by _init_git);
when the target is the adopted current working directory and any .git
entry exists, initialization silently returns without error. -/
theorem c8_amended_git_conflicts :
    ∀ (cwd avail fails : Bool) (g : GEnt),
      (cwd = false → g = GEnt.gfile →
        init_git_model cwd avail fails g = .error .cannotProceed)
      ∧ (cwd = false → g = GEnt.gdir →
        init_git_model cwd avail fails g = .error .cannotProceed)
      ∧ (cwd = true → g ≠ GEnt.gnone →
        init_git_model cwd avail fails g = .ok g) := by
  intro cwd avail fails g
  cases cwd <;> cases g <;> simp [init_git_model]

/-- Witness for c8_amended_git_conflicts: a .git file outside the
current working directory fails with CannotProceedError. -/
theorem c8_amended_witness :
    init_git_model false true false GEnt.gfile = .error .cannotProceed := by
  exact (c8_amended_git_conflicts false true false GEnt.gfile).1 rfl rfl

/-! ## Helper lemmas: the numeric version order (toolchain discovery) -/

lemma keyLt_irrefl : ∀ (a : List Nat), keyLt a a = false := by
  intro a
  induction a with
  | nil => rfl
  | cons x xs ih => simp [keyLt, ih]

lemma keyLt_trichotomy :
    ∀ (a b : List Nat), keyLt a b = true ∨ keyLt b a = true ∨ a = b := by
  intro a
  induction a with
  | nil =>
    intro b
    cases b with
    | nil => exact Or.inr (Or.inr rfl)
    | cons y ys => exact Or.inl rfl
  | cons x xs ih =>
    intro b
    cases b with
    | nil => exact Or.inr (Or.inl rfl)
    | cons y ys =>
      rcases Nat.lt_trichotomy x y with h | h | h
      · exact Or.inl (by simp [keyLt, h])
      · subst h
        rcases ih ys with h2 | h2 | h2
        · exact Or.inl (by simp [keyLt, h2])
        · exact Or.inr (Or.inl (by simp [keyLt, h2]))
        · exact Or.inr (Or.inr (by simp [h2]))
      · exact Or.inr (Or.inl (by simp [keyLt, h]))

lemma keyLt_asymm :
    ∀ (a b : List Nat), keyLt a b = true → keyLt b a = false := by
  intro a
  induction a with
  | nil =>
    intro b h
    cases b with
    | nil => simpa [keyLt] using h
    | cons y ys => rfl
  | cons x xs ih =>
    intro b h
    cases b with
    | nil => simpa [keyLt] using h
    | cons y ys =>
      simp only [keyLt, Bool.or_eq_true, Bool.and_eq_true, beq_iff_eq,
        decide_eq_true_eq, Bool.or_eq_false_iff, Bool.and_eq_false_iff,
        decide_eq_false_iff_not] at h ⊢
      rcases h with h | ⟨hxy, ht⟩
      · constructor
        · omega
        · left; simp; omega
      · subst hxy
        constructor
        · omega
        · right; exact ih ys ht

lemma keyLt_trans :
    ∀ (a b c : List Nat), keyLt a b = true → keyLt b c = true → keyLt a c = true := by
  intro a
  induction a with
  | nil =>
    intro b c hab hbc
    cases b with
    | nil => simpa [keyLt] using hab
    | cons y ys =>
      cases c with
      | nil => simpa [keyLt] using hbc
      | cons z zs => rfl
  | cons x xs ih =>
    intro b c hab hbc
    cases b with
    | nil => simpa [keyLt] using hab
    | cons y ys =>
      cases c with
      | nil => simpa [keyLt] using hbc
      | cons z zs =>
        simp only [keyLt, Bool.or_eq_true, Bool.and_eq_true, beq_iff_eq,
          decide_eq_true_eq] at hab hbc ⊢
        rcases hab with h1 | ⟨h1, ht1⟩ <;> rcases hbc with h2 | ⟨h2, ht2⟩
        · left; omega
        · left; omega
        · left; omega
        · right; exact ⟨by omega, ih ys zs ht1 ht2⟩

lemma keyLe_refl (a : List Nat) : keyLe a a = true := by
  simp [keyLe, keyLt_irrefl]

lemma keyLe_total (a b : List Nat) : keyLe a b = true ∨ keyLe b a = true := by
  rcases keyLt_trichotomy a b with h | h | h
  · left; simp [keyLe, keyLt_asymm _ _ h]
  · right; simp [keyLe, keyLt_asymm _ _ h]
  · subst h; left; exact keyLe_refl a

lemma keyLe_trans (a b c : List Nat)
    (hab : keyLe a b = true) (hbc : keyLe b c = true) : keyLe a c = true := by
  simp only [keyLe, Bool.not_eq_true'] at hab hbc ⊢
  by_contra hca
  have hca2 : keyLt c a = true := by
    cases h : keyLt c a with
    | false => exact absurd h hca
    | true => rfl
  rcases keyLt_trichotomy b c with h | h | h
  · have := keyLt_trans b c a h hca2
    simp [this] at hab
  · simp [h] at hbc
  · subst h
    simp [hca2] at hab

instance : IsTotal (List Nat × String) keyedLe :=
  ⟨fun x y => keyLe_total x.1 y.1⟩

instance : IsTrans (List Nat × String) keyedLe :=
  ⟨fun x y z => keyLe_trans x.1 y.1 z.1⟩

instance : IsRefl (List Nat × String) keyedLe :=
  ⟨fun x => keyLe_refl x.1⟩

/-! ## Helper lemmas: option-valued maps and last elements -/

lemma optMapList_forward {f : α → Option β} :
    ∀ {xs : List α} {ys : List β}, optMapList f xs = some ys →
      ∀ x ∈ xs, ∃ y ∈ ys, f x = some y := by
  intro xs
  induction xs with
  | nil => intro ys h x hx; cases hx
  | cons a as ih =>
    intro ys h x hx
    unfold optMapList at h
    cases hfa : f a with
    | none => rw [hfa] at h; cases h
    | some y0 =>
      rw [hfa] at h
      cases hrest : optMapList f as with
      | none => rw [hrest] at h; cases h
      | some ys0 =>
        rw [hrest] at h
        cases h
        rcases List.mem_cons.mp hx with h | h
        · subst h; exact ⟨y0, List.mem_cons_self _ _, hfa⟩
        · rcases ih hrest x h with ⟨y, hy, hfy⟩
          exact ⟨y, List.mem_cons_of_mem _ hy, hfy⟩

lemma optMapList_backward {f : α → Option β} :
    ∀ {xs : List α} {ys : List β}, optMapList f xs = some ys →
      ∀ y ∈ ys, ∃ x ∈ xs, f x = some y := by
  intro xs
  induction xs with
  | nil =>
    intro ys h y hy
    unfold optMapList at h
    cases h
    cases hy
  | cons a as ih =>
    intro ys h y hy
    unfold optMapList at h
    cases hfa : f a with
    | none => rw [hfa] at h; cases h
    | some y0 =>
      rw [hfa] at h
      cases hrest : optMapList f as with
      | none => rw [hrest] at h; cases h
      | some ys0 =>
        rw [hrest] at h
        cases h
        rcases List.mem_cons.mp hy with h | h
        · subst h; exact ⟨a, List.mem_cons_self _ _, hfa⟩
        · rcases ih hrest y h with ⟨x, hx, hfx⟩
          exact ⟨x, List.mem_cons_of_mem _ hx, hfx⟩

lemma mem_of_getLast? :
    ∀ {l : List α} {m : α}, l.getLast? = some m → m ∈ l := by
  intro l
  induction l with
  | nil => intro m h; cases h
  | cons a as ih =>
    intro m h
    cases as with
    | nil =>
      simp [List.getLast?] at h
      simp [h]
    | cons b bs =>
      rw [List.getLast?_cons_cons] at h
      exact List.mem_cons_of_mem _ (ih h)

lemma pairwise_rel_getLast? {r : α → α → Prop} (hrefl : ∀ a, r a a) :
    ∀ {l : List α}, l.Pairwise r → ∀ {m : α}, l.getLast? = some m →
      ∀ x ∈ l, r x m := by
  intro l
  induction l with
  | nil => intro _ m h; cases h
  | cons a as ih =>
    intro hp m hm x hx
    cases as with
    | nil =>
      simp [List.getLast?] at hm
      rcases List.mem_singleton.mp hx with h
      subst h; subst hm; exact hrefl x
    | cons b bs =>
      rw [List.getLast?_cons_cons] at hm
      rcases List.mem_cons.mp hx with h | h
      · subst h
        exact (List.pairwise_cons.mp hp).1 m (mem_of_getLast? hm)
      · exact ih (List.pairwise_cons.mp hp).2 hm x h

/-! ## Theorem for toolchain discovery -/

/-- The GNUTools directory of the C5 example, with version directories
1.2.0, 1.10.0 and 1.9.5, all with existing bin subdirectories. -/
def gnuSampleC5 : GnuTools :=
  { present := true
    entries := [⟨"1.2.0", true⟩, ⟨"1.10.0", true⟩, ⟨"1.9.5", true⟩]
    binDirs := ["1.2.0", "1.10.0", "1.9.5"] }

/-- A GNUTools directory with no version-like entries. -/
def gnuNoVersions : GnuTools :=
  { present := true
    entries := [⟨"share", true⟩, ⟨"README", false⟩]
    binDirs := [] }

/-- C5: toolchain discovery fails with MissingToolError when the filter
(directories whose name starts with a digit) leaves nothing; on the
example with versions 1.2.0, 1.10.0 and 1.9.5 it selects 1.10.0 and
returns its bin subdirectory; and in general every successful result is
the bin subdirectory of a filtered entry whose numeric dot-separated key
is maximal among all filtered entries. -/
theorem c5_toolchain_selection :
    (∀ g : GnuTools, g.present = true →
      (g.entries.filter versionFilter).isEmpty = true →
      find_maxim_toolchain g = .error .missingTool)
    ∧ find_maxim_toolchain gnuSampleC5 = .ok "1.10.0/bin"
    ∧ (∀ (g : GnuTools) (r : String), find_maxim_toolchain g = .ok r →
        ∃ b : String, r = b ++ "/bin"
          ∧ (∃ d ∈ g.entries.filter versionFilter, d.name = b)
          ∧ ∀ e ∈ g.entries.filter versionFilter,
              ∀ ke kb : List Nat, verKey? e.name = some ke → verKey? b = some kb →
                keyLe ke kb = true) := by
  refine ⟨?_, by rfl, ?_⟩
  · intro g hpres hempty
    unfold find_maxim_toolchain
    simp [hpres, hempty]
  · intro g r hok
    unfold find_maxim_toolchain at hok
    by_cases hpres : g.present
    · simp only [hpres, Bool.not_true, Bool.false_eq_true, if_false] at hok
      by_cases hempty : (g.entries.filter versionFilter).isEmpty
      · simp [hempty] at hok
      · simp only [hempty, Bool.false_eq_true, if_false] at hok
        cases hmap : optMapList (fun d => (verKey? d.name).map (fun k => (k, d.name)))
            (g.entries.filter versionFilter) with
        | none => rw [hmap] at hok; cases hok
        | some keyed =>
          rw [hmap] at hok
          dsimp only at hok
          cases hlast : (List.insertionSort keyedLe keyed).getLast? with
          | none => rw [hlast] at hok; cases hok
          | some best =>
            rw [hlast] at hok
            dsimp only at hok
            by_cases hbin : g.binDirs.contains best.2
            · simp only [hbin, if_true, Except.ok.injEq] at hok
              refine ⟨best.2, hok.symm, ?_, ?_⟩
              · have hmem : best ∈ List.insertionSort keyedLe keyed :=
                  mem_of_getLast? hlast
                have hmem2 : best ∈ keyed :=
                  (List.perm_insertionSort keyedLe keyed).subset hmem
                rcases optMapList_backward hmap best hmem2 with ⟨d, hd, hfd⟩
                cases hkd : verKey? d.name with
                | none => simp [hkd] at hfd
                | some kd =>
                  refine ⟨d, hd, ?_⟩
                  simp [hkd] at hfd
                  rw [← hfd]
              · intro e he ke kb hke hkb
                rcases optMapList_forward hmap e he with ⟨ye, hye, hfye⟩
                cases hke2 : verKey? e.name with
                | none => simp [hke2] at hfye
                | some ke2 =>
                  simp [hke2] at hfye
                  rw [hke2] at hke
                  cases hke
                  have hmemS : ye ∈ List.insertionSort keyedLe keyed :=
                    ((List.perm_insertionSort keyedLe keyed).symm).subset hye
                  have hsorted : (List.insertionSort keyedLe keyed).Pairwise keyedLe :=
                    List.sorted_insertionSort keyedLe keyed
                  have hrel : keyedLe ye best :=
                    @pairwise_rel_getLast? _ keyedLe (fun x => keyLe_refl x.1) _
                      hsorted _ hlast ye hmemS
                  have hbest1 : verKey? best.2 = some best.1 := by
                    have hmem : best ∈ List.insertionSort keyedLe keyed :=
                      mem_of_getLast? hlast
                    have hmem2 : best ∈ keyed :=
                      (List.perm_insertionSort keyedLe keyed).subset hmem
                    rcases optMapList_backward hmap best hmem2 with ⟨d, _, hfd⟩
                    cases hkd : verKey? d.name with
                    | none => simp [hkd] at hfd
                    | some kd =>
                      simp [hkd] at hfd
                      rw [← hfd]
                      simpa [hkd]
                  rw [hbest1] at hkb
                  cases hkb
                  have hy1 : ye.1 = ke := by rw [← hfye]
                  rw [← hy1]
                  exact hrel
            · rw [if_neg hbin] at hok
              cases hok
    · simp [hpres] at hok

/-- Witness for c5_toolchain_selection: a GNUTools directory whose
entries contain no version directory yields MissingToolError, applying
the first conjunct at a concrete input. -/
theorem c5_witness :
    find_maxim_toolchain gnuNoVersions = .error .missingTool := by
  exact c5_toolchain_selection.1 gnuNoVersions (by decide) (by decide)

/-! ## Helper lemmas: state reached by the generation pipeline -/

/-- The output-directory state carried by a step result, whether the
step succeeded or raised. -/
def resState : GRes → OutDir
  | .ok d => d
  | .error (_, d) => d

lemma resSat_stepBind {P : OutDir → Prop} {x : GRes} {f : OutDir → GRes}
    (hx : P (resState x)) (hf : ∀ d, P d → P (resState (f d))) :
    P (resState (stepBind x f)) := by
  cases x with
  | error e => simpa [stepBind, resState] using hx
  | ok d => exact hf d (by simpa [resState] using hx)

lemma genSuffix_resSat {P : OutDir → Prop} (t : TemplateDir) (a : GenArgs)
    (h7 : ∀ d, P d → P (resState (stepGitKeep a d)))
    (h8 : ∀ d, P d → P (resState (stepVscode t a d)))
    (h9 : ∀ d, P d → P (resState (stepToml t d)))
    (h10 : ∀ d, P d → P (resState (stepReadme a d)))
    (h11 : ∀ d, P d → P (resState (stepGit a d)))
    (d6 : OutDir) (h6 : P d6) : P (resState (genSuffix t a d6)) := by
  unfold genSuffix
  apply resSat_stepBind (h7 d6 h6)
  intro d7 hp7
  apply resSat_stepBind (h8 d7 hp7)
  intro d8 hp8
  apply resSat_stepBind (h9 d8 hp8)
  intro d9 hp9
  apply resSat_stepBind (h10 d9 hp9)
  intro d10 hp10
  exact h11 d10 hp10

lemma genInner_resSat {P : OutDir → Prop} (t : TemplateDir) (a : GenArgs)
    (h1 : ∀ d, P d → P (resState (stepEnsureTemplate t d)))
    (h2 : ∀ d, P d → P (resState (stepMkdir a d)))
    (h3 : ∀ d, P d → P (resState (stepSubdirs d)))
    (h4 : ∀ d, P d → P (resState (stepCopyMakefile t a d)))
    (h5 : ∀ d, P d → P (resState (stepCopyMainC t a d)))
    (h6 : ∀ d, P d → P (resState (stepCopyProjectMk t a d)))
    (h7 : ∀ d, P d → P (resState (stepGitKeep a d)))
    (h8 : ∀ d, P d → P (resState (stepVscode t a d)))
    (h9 : ∀ d, P d → P (resState (stepToml t d)))
    (h10 : ∀ d, P d → P (resState (stepReadme a d)))
    (h11 : ∀ d, P d → P (resState (stepGit a d)))
    (d0 : OutDir) (h0 : P d0) : P (resState (genInner t a d0)) := by
  unfold genInner
  apply resSat_stepBind (h1 d0 h0)
  intro d1 hp1
  apply resSat_stepBind (h2 d1 hp1)
  intro d2 hp2
  apply resSat_stepBind (h3 d2 hp2)
  intro d3 hp3
  apply resSat_stepBind (h4 d3 hp3)
  intro d4 hp4
  apply resSat_stepBind (h5 d4 hp4)
  intro d5 hp5
  apply resSat_stepBind (h6 d5 hp5)
  intro d6 hp6
  exact genSuffix_resSat t a h7 h8 h9 h10 h11 d6 hp6

/-! ## Theorems for generation rollback (C2) -/

/-- C2: whenever generation raises (the caught IO or validation errors)
and the target directory did not pre-exist and is not the adopted
current working directory, the target directory does not exist
afterwards; and when the target is the pre-existing current working
directory, generation never removes it. -/
theorem c2_rollback_and_cwd_preserved :
    (∀ (t : TemplateDir) (a : GenArgs) (d0 : OutDir),
      a.is_cwd = false → d0.present = false →
      (gen_proj t a d0).1.isSome = true →
      ((gen_proj t a d0).2).present = false)
    ∧ (∀ (t : TemplateDir) (a : GenArgs) (d0 : OutDir),
      a.is_cwd = true → d0.present = true →
      ((gen_proj t a d0).2).present = true) := by
  constructor
  · intro t a d0 hcwd _h0 hsome
    unfold gen_proj at hsome ⊢
    cases hgi : genInner t a d0 with
    | ok d =>
      rw [hgi] at hsome
      simp at hsome
    | error p =>
      obtain ⟨e, d⟩ := p
      by_cases hdp : d.present
      · simp [hdp, hcwd, OutDir.emptyAbsent]
      · simp only [Bool.not_eq_true] at hdp
        simp [hdp, hcwd]
  · intro t a d0 hcwd hp0
    have hP : (resState (genInner t a d0)).present = d0.present := by
      apply @genInner_resSat (fun d => d.present = d0.present) t a
      · intro d hd
        unfold stepEnsureTemplate
        split <;> simpa [resState] using hd
      · intro d hd
        simpa [stepMkdir, hcwd, resState] using hd
      · intro d hd
        simpa [stepSubdirs, resState] using hd
      · intro d hd
        simp only [stepCopyMakefile]
        repeat' split
        all_goals simpa [resState] using hd
      · intro d hd
        simp only [stepCopyMainC]
        repeat' split
        all_goals simpa [resState] using hd
      · intro d hd
        simp only [stepCopyProjectMk]
        repeat' split
        all_goals simpa [resState] using hd
      · intro d hd
        simp only [stepGitKeep]
        repeat' split
        all_goals simpa [resState] using hd
      · intro d hd
        simp only [stepVscode]
        repeat' split
        all_goals simpa [resState] using hd
      · intro d hd
        simp only [stepToml]
        repeat' split
        all_goals simpa [resState] using hd
      · intro d hd
        simp only [stepReadme]
        repeat' split
        all_goals simpa [resState] using hd
      · intro d hd
        simp only [stepGit]
        repeat' split
        all_goals simpa [resState] using hd
      · rfl
    unfold gen_proj
    cases hgi : genInner t a d0 with
    | ok d =>
      rw [hgi] at hP
      simp [resState] at hP
      simp [hP, hp0]
    | error p =>
      obtain ⟨e, d⟩ := p
      rw [hgi] at hP
      simp [resState] at hP
      simp [hcwd, hP, hp0]

/-- Witness for c2_rollback_and_cwd_preserved: a fresh-directory run
that fails at the .vscode copy (the template has no .vscode directory)
leaves no directory behind, and an adopted-cwd run keeps the directory. -/
theorem c2_witness :
    ((gen_proj
        { present := true, hasMakefile := true, hasMainC := true,
          hasProjectMk := true, makefileContent := "M", mainCContent := "C",
          projectMkLines := ["# Add your config here!"], hasVscodeDir := false,
          settingsJson := none }
        { projName := "blinky", target := "MAX32655", bsp := "EvKit_V1",
          is_cwd := false, include_vscode := true, include_readme := true,
          init_git := true, gitAvailable := true, gitInitFails := false,
          fault0 := false, fault1 := false, fault2 := false }
        OutDir.emptyAbsent).2).present = false
    ∧ ((gen_proj
        { present := true, hasMakefile := true, hasMainC := true,
          hasProjectMk := true, makefileContent := "M", mainCContent := "C",
          projectMkLines := ["# Add your config here!"], hasVscodeDir := false,
          settingsJson := none }
        { projName := "blinky", target := "MAX32655", bsp := "EvKit_V1",
          is_cwd := true, include_vscode := false, include_readme := false,
          init_git := false, gitAvailable := true, gitInitFails := false,
          fault0 := false, fault1 := false, fault2 := false }
        OutDir.emptyPresent).2).present = true := by
  exact ⟨c2_rollback_and_cwd_preserved.1 _ _ _ rfl rfl rfl,
         c2_rollback_and_cwd_preserved.2 _ _ _ rfl rfl⟩

/-! ## Theorems for the sentinel marker (C1) -/

/-- The settings.json document of the full C1 example template. -/
def sampleVsC1 : VsSettings :=
  { program_file := some (tokProjectName ++ ".elf")
    symbol_file := some tokProgramFile
    target := some "MAX32655"
    board := some "EvKit_V1"
    interface_file := none
    target_file := none }

/-- A valid template source with all three required files and a .vscode
directory holding settings.json. -/
def tplSampleC1 : TemplateDir :=
  { present := true, hasMakefile := true, hasMainC := true,
    hasProjectMk := true, makefileContent := "TEMPLATE-MAKEFILE",
    mainCContent := "int main(void)",
    projectMkLines := ["# config", "# Add your config here!"],
    hasVscodeDir := true, settingsJson := some sampleVsC1 }

/-- A fresh-directory generation request with every feature enabled. -/
def argsFreshC1 : GenArgs :=
  { projName := "blinky", target := "MAX32655", bsp := "EvKit_V1",
    is_cwd := false, include_vscode := true, include_readme := true,
    init_git := true, gitAvailable := true, gitInitFails := false,
    fault0 := false, fault1 := false, fault2 := false }

/-- C1 evaluated against the code: a fully successful generation from a
valid template source produces a directory without the .msdk-py-proj
sentinel marker, which ensure_proj_dir therefore rejects with
ValidationError; and in general no generation run ever creates the
marker (the final marker state can only be true when it already was in
the initial state).  The only double-initialization guard the pipeline
has is the CannotProceedError raised for an existing msdk-proj.toml, not
a marker check. -/
theorem c1_sentinel_marker_never_written :
    (gen_proj tplSampleC1 argsFreshC1 OutDir.emptyAbsent).1 = none
    ∧ ((gen_proj tplSampleC1 argsFreshC1 OutDir.emptyAbsent).2).marker = false
    ∧ ensure_proj_dir ((gen_proj tplSampleC1 argsFreshC1 OutDir.emptyAbsent).2)
        = .error .validation
    ∧ (∀ (t : TemplateDir) (a : GenArgs) (d0 : OutDir),
        ((gen_proj t a d0).2).marker = true → d0.marker = true) := by
  refine ⟨rfl, rfl, rfl, ?_⟩
  intro t a d0
  have hP : (fun d : OutDir => d.marker = true → d0.marker = true)
      (resState (genInner t a d0)) := by
    apply @genInner_resSat (fun d => d.marker = true → d0.marker = true) t a
    · intro d hd
      unfold stepEnsureTemplate
      split <;> simpa [resState] using hd
    · intro d hd
      simp only [stepMkdir]
      repeat' split
      all_goals
        first
        | simpa [resState] using hd
        | simp [resState, OutDir.emptyPresent, OutDir.emptyAbsent]
    · intro d hd
      simpa [stepSubdirs, resState] using hd
    · intro d hd
      simp only [stepCopyMakefile]
      repeat' split
      all_goals simpa [resState] using hd
    · intro d hd
      simp only [stepCopyMainC]
      repeat' split
      all_goals simpa [resState] using hd
    · intro d hd
      simp only [stepCopyProjectMk]
      repeat' split
      all_goals simpa [resState] using hd
    · intro d hd
      simp only [stepGitKeep]
      repeat' split
      all_goals simpa [resState] using hd
    · intro d hd
      simp only [stepVscode]
      repeat' split
      all_goals simpa [resState] using hd
    · intro d hd
      simp only [stepToml]
      repeat' split
      all_goals simpa [resState] using hd
    · intro d hd
      simp only [stepReadme]
      repeat' split
      all_goals simpa [resState] using hd
    · intro d hd
      simp only [stepGit]
      repeat' split
      all_goals simpa [resState] using hd
    · exact fun h => h
  unfold gen_proj
  cases hgi : genInner t a d0 with
  | ok d =>
    rw [hgi] at hP
    simp only [resState] at hP
    exact hP
  | error p =>
    obtain ⟨e, d⟩ := p
    rw [hgi] at hP
    simp only [resState] at hP
    dsimp only
    split
    · intro h
      simp [OutDir.emptyAbsent] at h
    · exact hP

/-- Witness for c1_sentinel_marker_never_written: the general conjunct
applied to an adopted-cwd state that already carries the marker. -/
theorem c1_witness :
    ({ OutDir.emptyPresent with marker := true } : OutDir).marker = true := by
  exact c1_sentinel_marker_never_written.2.2.2
    { present := true, hasMakefile := true, hasMainC := true,
      hasProjectMk := true, makefileContent := "M", mainCContent := "C",
      projectMkLines := ["# Add your config here!"], hasVscodeDir := false,
      settingsJson := none }
    { projName := "p", target := "T", bsp := "B",
      is_cwd := true, include_vscode := false, include_readme := false,
      init_git := false, gitAvailable := true, gitInitFails := false,
      fault0 := false, fault1 := false, fault2 := false }
    { OutDir.emptyPresent with marker := true }
    (by rfl)

/-! ## Theorems for the copy policy (C3) and the .gitkeep placeholder
(C4) -/

/-- A valid template source without a .vscode directory. -/
def tplPlain : TemplateDir :=
  { present := true, hasMakefile := true, hasMainC := true,
    hasProjectMk := true, makefileContent := "M", mainCContent := "C",
    projectMkLines := ["# Add your config here!"], hasVscodeDir := false,
    settingsJson := none }

/-- An adopted-cwd generation request with no optional feature. -/
def argsCwdPlain : GenArgs :=
  { projName := "p", target := "T", bsp := "B",
    is_cwd := true, include_vscode := false, include_readme := false,
    init_git := false, gitAvailable := true, gitInitFails := false,
    fault0 := false, fault1 := false, fault2 := false }

/-- A fresh-directory generation request with git support only. -/
def argsFreshGitOnly : GenArgs :=
  { argsCwdPlain with is_cwd := false, init_git := true }

/-- An adopted-cwd generation request with git support only. -/
def argsCwdGitOnly : GenArgs :=
  { argsCwdPlain with init_git := true }

/-- An adopted current working directory that already holds a Makefile. -/
def dCwdOldMakefile : OutDir :=
  { OutDir.emptyPresent with makefile := some "OLD-MAKEFILE" }

/-- An adopted current working directory that already holds all three
destination files. -/
def dCwdAllFiles : OutDir :=
  { OutDir.emptyPresent with
      makefile := some "OLD-MAKEFILE"
      srcMain := some "OLD-MAIN"
      projectMk := some ["OLD-MK"] }

/-- An adopted current working directory whose include/ directory holds
one header. -/
def dCwdInclude : OutDir :=
  { OutDir.emptyPresent with includeEntries := ["util.h"] }

/-- C3 counterexample: adopting the current working directory with an
existing Makefile, generation succeeds but the existing file is not
renamed to a .old name and the template content does not end up at the
destination: the copy is simply skipped and the prior content stays at
the destination. -/
theorem c3_counterexample :
    (gen_proj tplPlain argsCwdPlain dCwdOldMakefile).1 = none
    ∧ ((gen_proj tplPlain argsCwdPlain dCwdOldMakefile).2).makefile
        = some "OLD-MAKEFILE"
    ∧ ((gen_proj tplPlain argsCwdPlain dCwdOldMakefile).2).makefile
        ≠ some tplPlain.makefileContent
    ∧ ((gen_proj tplPlain argsCwdPlain dCwdOldMakefile).2).makefileOld = none := by
  exact ⟨rfl, rfl, by decide, rfl⟩

/-- C3 amended: when adopting the current working directory, each
existing destination file (Makefile, src/main.c, project.mk) is left in
place with its exact prior content: the copy for that file is skipped
and nothing is renamed to a .old name (none of the three .old names is
ever created); for project.mk, keeping the exact prior content shows the
identity-block rewrite is skipped together with the copy (it runs only
when the copy ran).  When creating a fresh directory, a generation run
that succeeds with no injected IO fault copies all three template files
to their destinations (with the project.mk identity rewrite applied). -/
theorem c3_amended_copy_policy :
    (∀ (t : TemplateDir) (a : GenArgs) (d0 : OutDir),
      a.is_cwd = true →
      (∀ c : String, d0.makefile = some c →
        ((gen_proj t a d0).2).makefile = some c)
      ∧ (∀ c : String, d0.srcMain = some c →
        ((gen_proj t a d0).2).srcMain = some c)
      ∧ (∀ c : List String, d0.projectMk = some c →
        ((gen_proj t a d0).2).projectMk = some c)
      ∧ (d0.makefileOld = none ∧ d0.srcMainOld = none ∧ d0.projectMkOld = none →
        ((gen_proj t a d0).2).makefileOld = none
        ∧ ((gen_proj t a d0).2).srcMainOld = none
        ∧ ((gen_proj t a d0).2).projectMkOld = none))
    ∧ (∀ (t : TemplateDir) (a : GenArgs) (d0 : OutDir),
      a.is_cwd = false → d0.present = false → templateOk t = true →
      a.fault0 = false → a.fault1 = false → a.fault2 = false →
      (gen_proj t a d0).1 = none →
      ((gen_proj t a d0).2).makefile = some t.makefileContent
      ∧ ((gen_proj t a d0).2).srcMain = some t.mainCContent
      ∧ ((gen_proj t a d0).2).projectMk
          = some (rewriteProjectMk t.projectMkLines a)) := by
  constructor
  · intro t a d0 hcwd
    have hwrap : ∀ (P : OutDir → Prop), P (resState (genInner t a d0)) →
        P ((gen_proj t a d0).2) := by
      intro P hP
      unfold gen_proj
      cases hgi : genInner t a d0 with
      | ok d =>
        rw [hgi] at hP
        simp only [resState] at hP
        exact hP
      | error p =>
        obtain ⟨e, d⟩ := p
        rw [hgi] at hP
        simp only [resState] at hP
        dsimp only
        rw [if_neg]
        · exact hP
        · simp [hcwd]
    refine ⟨?_, ?_, ?_, ?_⟩
    · intro c hc
      refine hwrap (fun d => d.makefile = some c) ?_
      apply @genInner_resSat (fun d => d.makefile = some c) t a
      · intro d hd
        unfold stepEnsureTemplate
        split <;> simpa [resState] using hd
      · intro d hd
        simpa [stepMkdir, hcwd, resState] using hd
      · intro d hd
        simpa [stepSubdirs, resState] using hd
      · intro d hd
        simp only [stepCopyMakefile]
        repeat' split
        all_goals first
          | simpa [resState] using hd
          | simp_all [resState]
      · intro d hd
        simp only [stepCopyMainC]
        repeat' split
        all_goals simpa [resState] using hd
      · intro d hd
        simp only [stepCopyProjectMk]
        repeat' split
        all_goals simpa [resState] using hd
      · intro d hd
        simp only [stepGitKeep]
        repeat' split
        all_goals simpa [resState] using hd
      · intro d hd
        simp only [stepVscode]
        repeat' split
        all_goals simpa [resState] using hd
      · intro d hd
        simp only [stepToml]
        repeat' split
        all_goals simpa [resState] using hd
      · intro d hd
        simp only [stepReadme]
        repeat' split
        all_goals simpa [resState] using hd
      · intro d hd
        simp only [stepGit]
        repeat' split
        all_goals simpa [resState] using hd
      · exact hc
    · intro c hc
      refine hwrap (fun d => d.srcMain = some c) ?_
      apply @genInner_resSat (fun d => d.srcMain = some c) t a
      · intro d hd
        unfold stepEnsureTemplate
        split <;> simpa [resState] using hd
      · intro d hd
        simpa [stepMkdir, hcwd, resState] using hd
      · intro d hd
        simpa [stepSubdirs, resState] using hd
      · intro d hd
        simp only [stepCopyMakefile]
        repeat' split
        all_goals simpa [resState] using hd
      · intro d hd
        simp only [stepCopyMainC]
        repeat' split
        all_goals first
          | simpa [resState] using hd
          | simp_all [resState]
      · intro d hd
        simp only [stepCopyProjectMk]
        repeat' split
        all_goals simpa [resState] using hd
      · intro d hd
        simp only [stepGitKeep]
        repeat' split
        all_goals simpa [resState] using hd
      · intro d hd
        simp only [stepVscode]
        repeat' split
        all_goals simpa [resState] using hd
      · intro d hd
        simp only [stepToml]
        repeat' split
        all_goals simpa [resState] using hd
      · intro d hd
        simp only [stepReadme]
        repeat' split
        all_goals simpa [resState] using hd
      · intro d hd
        simp only [stepGit]
        repeat' split
        all_goals simpa [resState] using hd
      · exact hc
    · intro c hc
      refine hwrap (fun d => d.projectMk = some c) ?_
      apply @genInner_resSat (fun d => d.projectMk = some c) t a
      · intro d hd
        unfold stepEnsureTemplate
        split <;> simpa [resState] using hd
      · intro d hd
        simpa [stepMkdir, hcwd, resState] using hd
      · intro d hd
        simpa [stepSubdirs, resState] using hd
      · intro d hd
        simp only [stepCopyMakefile]
        repeat' split
        all_goals simpa [resState] using hd
      · intro d hd
        simp only [stepCopyMainC]
        repeat' split
        all_goals simpa [resState] using hd
      · intro d hd
        simp only [stepCopyProjectMk]
        repeat' split
        all_goals first
          | simpa [resState] using hd
          | simp_all [resState]
      · intro d hd
        simp only [stepGitKeep]
        repeat' split
        all_goals simpa [resState] using hd
      · intro d hd
        simp only [stepVscode]
        repeat' split
        all_goals simpa [resState] using hd
      · intro d hd
        simp only [stepToml]
        repeat' split
        all_goals simpa [resState] using hd
      · intro d hd
        simp only [stepReadme]
        repeat' split
        all_goals simpa [resState] using hd
      · intro d hd
        simp only [stepGit]
        repeat' split
        all_goals simpa [resState] using hd
      · exact hc
    · intro holds
      refine hwrap (fun d => d.makefileOld = none ∧ d.srcMainOld = none
        ∧ d.projectMkOld = none) ?_
      apply @genInner_resSat (fun d => d.makefileOld = none ∧ d.srcMainOld = none
        ∧ d.projectMkOld = none) t a
      · intro d hd
        unfold stepEnsureTemplate
        split <;> simpa [resState] using hd
      · intro d hd
        simp only [stepMkdir]
        repeat' split
        all_goals simpa [resState, OutDir.emptyPresent, OutDir.emptyAbsent] using hd
      · intro d hd
        simpa [stepSubdirs, resState] using hd
      · intro d hd
        simp only [stepCopyMakefile]
        repeat' split
        all_goals simpa [resState] using hd
      · intro d hd
        simp only [stepCopyMainC]
        repeat' split
        all_goals simpa [resState] using hd
      · intro d hd
        simp only [stepCopyProjectMk]
        repeat' split
        all_goals simpa [resState] using hd
      · intro d hd
        simp only [stepGitKeep]
        repeat' split
        all_goals simpa [resState] using hd
      · intro d hd
        simp only [stepVscode]
        repeat' split
        all_goals simpa [resState] using hd
      · intro d hd
        simp only [stepToml]
        repeat' split
        all_goals simpa [resState] using hd
      · intro d hd
        simp only [stepReadme]
        repeat' split
        all_goals simpa [resState] using hd
      · intro d hd
        simp only [stepGit]
        repeat' split
        all_goals simpa [resState] using hd
      · exact holds
  · intro t a d0 hcwd hpres htOk hf0 hf1 hf2 hok
    have e1 : stepEnsureTemplate t d0 = .ok d0 := by
      simp [stepEnsureTemplate, htOk]
    have e2 : stepMkdir a d0 = .ok OutDir.emptyPresent := by
      simp [stepMkdir, hcwd, hpres]
    have hpre : genInner t a d0 = genSuffix t a
        { OutDir.emptyPresent with
            srcDir := true
            includeDir := true
            makefile := some t.makefileContent
            srcMain := some t.mainCContent
            projectMk := some (rewriteProjectMk t.projectMkLines a) } := by
      unfold genInner
      rw [e1]
      simp only [stepBind]
      rw [e2]
      simp only [stepBind]
      simp [stepSubdirs, stepBind, stepCopyMakefile, stepCopyMainC,
        stepCopyProjectMk, hf0, hf1, hf2, OutDir.emptyPresent, OutDir.emptyAbsent]
    have hsat : (fun d : OutDir => d.makefile = some t.makefileContent
        ∧ d.srcMain = some t.mainCContent
        ∧ d.projectMk = some (rewriteProjectMk t.projectMkLines a))
        (resState (genInner t a d0)) := by
      rw [hpre]
      apply @genSuffix_resSat (fun d => d.makefile = some t.makefileContent
        ∧ d.srcMain = some t.mainCContent
        ∧ d.projectMk = some (rewriteProjectMk t.projectMkLines a)) t a
      · intro d hd
        simp only [stepGitKeep]
        repeat' split
        all_goals simpa [resState] using hd
      · intro d hd
        simp only [stepVscode]
        repeat' split
        all_goals simpa [resState] using hd
      · intro d hd
        simp only [stepToml]
        repeat' split
        all_goals simpa [resState] using hd
      · intro d hd
        simp only [stepReadme]
        repeat' split
        all_goals simpa [resState] using hd
      · intro d hd
        simp only [stepGit]
        repeat' split
        all_goals simpa [resState] using hd
      · exact ⟨rfl, rfl, rfl⟩
    cases hgi : genInner t a d0 with
    | ok d =>
      unfold gen_proj
      rw [hgi] at hsat ⊢
      simpa [resState] using hsat
    | error p =>
      obtain ⟨e, d⟩ := p
      unfold gen_proj at hok
      rw [hgi] at hok
      dsimp only at hok
      split at hok <;> simp at hok

/-- Witness for c3_amended_copy_policy: the adopted-cwd conjunct at a
directory holding all three destination files, and the fresh-directory
conjunct at a plain successful run. -/
theorem c3_amended_witness :
    (((gen_proj tplPlain argsCwdPlain dCwdAllFiles).2).makefile
        = some "OLD-MAKEFILE"
      ∧ ((gen_proj tplPlain argsCwdPlain dCwdAllFiles).2).srcMain
        = some "OLD-MAIN"
      ∧ ((gen_proj tplPlain argsCwdPlain dCwdAllFiles).2).projectMk
        = some ["OLD-MK"]
      ∧ (((gen_proj tplPlain argsCwdPlain dCwdAllFiles).2).makefileOld = none
        ∧ ((gen_proj tplPlain argsCwdPlain dCwdAllFiles).2).srcMainOld = none
        ∧ ((gen_proj tplPlain argsCwdPlain dCwdAllFiles).2).projectMkOld = none))
    ∧ (((gen_proj tplPlain argsFreshGitOnly OutDir.emptyAbsent).2).makefile
        = some tplPlain.makefileContent
      ∧ ((gen_proj tplPlain argsFreshGitOnly OutDir.emptyAbsent).2).srcMain
        = some tplPlain.mainCContent
      ∧ ((gen_proj tplPlain argsFreshGitOnly OutDir.emptyAbsent).2).projectMk
        = some (rewriteProjectMk tplPlain.projectMkLines argsFreshGitOnly)) := by
  exact ⟨⟨(c3_amended_copy_policy.1 tplPlain argsCwdPlain dCwdAllFiles rfl).1
            "OLD-MAKEFILE" rfl,
          (c3_amended_copy_policy.1 tplPlain argsCwdPlain dCwdAllFiles rfl).2.1
            "OLD-MAIN" rfl,
          (c3_amended_copy_policy.1 tplPlain argsCwdPlain dCwdAllFiles rfl).2.2.1
            ["OLD-MK"] rfl,
          (c3_amended_copy_policy.1 tplPlain argsCwdPlain dCwdAllFiles rfl).2.2.2
            ⟨rfl, rfl, rfl⟩⟩,
         c3_amended_copy_policy.2 tplPlain argsFreshGitOnly OutDir.emptyAbsent
           rfl rfl rfl rfl rfl rfl rfl⟩

/-- C4 evaluated against the code: with git support requested, a fresh
generation whose include/ directory ends up empty gets no placeholder
file (the claim says it should), while an adopted-cwd generation whose
include/ directory is non-empty has the placeholder appended (the claim
says it should not): the dir_is_empty helper returns the negation of
what its name and docstring promise. -/
theorem c4_gitkeep_condition_inverted :
    (gen_proj tplPlain argsFreshGitOnly OutDir.emptyAbsent).1 = none
    ∧ ((gen_proj tplPlain argsFreshGitOnly OutDir.emptyAbsent).2).includeEntries = []
    ∧ (gen_proj tplPlain argsCwdGitOnly dCwdInclude).1 = none
    ∧ ((gen_proj tplPlain argsCwdGitOnly dCwdInclude).2).includeEntries
        = ["util.h", ".gitkeep"] := by
  exact ⟨rfl, rfl, rfl, rfl⟩
